import Mathlib

/-!
# Verification of the Pai assistant's core against its specification

Shallow embedding of the repository's core logic:

* `services/timeprocessor.py` — the natural-language time/date/recurrence
  extractor (`TimeProcessor`), embedded over `List Char` with explicit
  models of the regular expressions the source uses.
* `api/routes.py` — the webhook turn controller, the function-call
  dispatch loop, and `execute_function_call`, embedded as pure functions
  over oracles for the external collaborators (LLM, Notion service,
  database persistence, Telegram sends).
* `llm/processor.py` — the function-call schema registry.
* `database/models.py` — the `RepeatFrequency` enumeration.
* `ReminderService`'s recurrence normalizer `parse_time_interval`
  (called from `services/reminder.py` but not defined under src/) is
  modelled from the spec, §4.2.

Python strings are embedded as `List Char` (wrapped in `String` at the
interface); `\d` of Python's `re` is modelled as the ASCII digits,
`\s` as ASCII whitespace, and `str.lower` as the ASCII lowering — the
claims under study only involve ASCII text.
-/

namespace Pai

/-! ## Characters and strings -/

/-- ASCII lower-casing of a character, modelling Python's `str.lower`
on the ASCII range. -/
def pyLower (c : Char) : Char :=
  if 65 ≤ c.toNat ∧ c.toNat ≤ 90 then Char.ofNat (c.toNat + 32) else c

/-- Lower-case a string (as a character list). -/
def lowerStr (l : List Char) : List Char := l.map pyLower

/-- `startsList p l` holds when `p` is an initial segment of `l`
(Python `str.startswith`). -/
def startsList : List Char → List Char → Bool
  | [], _ => true
  | _ :: _, [] => false
  | p :: ps, c :: cs => p == c && startsList ps cs

/-- Substring test on character lists: Python's `pat in text`. -/
def hasSubL (pat : List Char) : List Char → Bool
  | [] => startsList pat []
  | c :: rest => startsList pat (c :: rest) || hasSubL pat rest

/-- Substring test, string pattern against a character list. -/
def hasSub (pat : String) (l : List Char) : Bool := hasSubL pat.toList l

/-- Fuel-driven worker for `replaceSub`. -/
def replaceSubGo (pat rep : List Char) : Nat → List Char → List Char
  | 0, l => l
  | _ + 1, [] => []
  | fuel + 1, c :: cs =>
    if startsList pat (c :: cs) ∧ pat ≠ [] then
      rep ++ replaceSubGo pat rep fuel (List.drop (pat.length - 1) cs)
    else
      c :: replaceSubGo pat rep fuel cs

/-- Replace every (non-overlapping, leftmost) occurrence of `pat` by `rep`:
Python's `str.replace` for a non-empty pattern.  The fuel `l.length` always
suffices: every step consumes at least one character. -/
def replaceSub (pat rep l : List Char) : List Char := replaceSubGo pat rep l.length l

/-- ASCII digit test, modelling `\d` of Python's `re` on ASCII input. -/
def isDig (c : Char) : Bool := 48 ≤ c.toNat && c.toNat ≤ 57

/-- Numeric value of an ASCII digit character. -/
def digVal (c : Char) : Nat := c.toNat - 48

/-- ASCII whitespace, modelling `\s` of Python's `re` on ASCII input
(space, tab, newline, carriage return, form feed, vertical tab). -/
def isWs (c : Char) : Bool :=
  c == ' ' || c == '\t' || c == '\n' || c == '\r' || c.toNat == 11 || c.toNat == 12

/-- Decimal digits of `n`, most significant first (fuel-based so that it
reduces by `decide`). -/
def decDigitsGo : Nat → Nat → List Char
  | 0, _ => []
  | fuel + 1, n =>
    if n < 10 then [Nat.digitChar n]
    else decDigitsGo fuel (n / 10) ++ [Nat.digitChar (n % 10)]

/-- Full decimal representation of a natural number. -/
def decDigits (n : Nat) : List Char := decDigitsGo (n + 1) n

/-- Zero-pad to (at least) two digits: Python's `f"{n:02d}"` for `n ≥ 0`. -/
def pad2 (n : Nat) : List Char := if n < 10 then '0' :: decDigits n else decDigits n

/-- Zero-pad to (at least) four digits: `strftime`'s `%Y`. -/
def pad4 (n : Nat) : List Char :=
  if n < 10 then '0' :: '0' :: '0' :: decDigits n
  else if n < 100 then '0' :: '0' :: decDigits n
  else if n < 1000 then '0' :: decDigits n
  else decDigits n

/-! ## Calendar dates

`datetime` values are embedded as proleptic-Gregorian calendar dates;
the source only uses the date part (plus `weekday`) of `datetime.now()`. -/

/-- A calendar date (the date part of a Python `datetime`). -/
structure PDate where
  year : Nat
  month : Nat
  day : Nat
deriving DecidableEq, Repr

/-- Gregorian leap-year test. -/
def isLeap (y : Nat) : Bool := (y % 4 == 0 && y % 100 != 0) || y % 400 == 0

/-- Number of days in a month. -/
def daysInMonth (y m : Nat) : Nat :=
  if m = 2 then (if isLeap y then 29 else 28)
  else if m = 4 ∨ m = 6 ∨ m = 9 ∨ m = 11 then 30
  else 31

/-- Validity of `datetime(year, month, day)`: Python raises `ValueError`
outside these bounds (`MINYEAR = 1`, `MAXYEAR = 9999`). -/
def dateValid (y m d : Nat) : Bool :=
  1 ≤ y && y ≤ 9999 && 1 ≤ m && m ≤ 12 && 1 ≤ d && d ≤ daysInMonth y m

/-- The day after a date. -/
def nextDay (t : PDate) : PDate :=
  if t.day < daysInMonth t.year t.month then ⟨t.year, t.month, t.day + 1⟩
  else if t.month < 12 then ⟨t.year, t.month + 1, 1⟩
  else ⟨t.year + 1, 1, 1⟩

/-- `t + timedelta(days := n)`. -/
def addDays (t : PDate) : Nat → PDate
  | 0 => t
  | n + 1 => nextDay (addDays t n)

/-- Cumulative days in the first `m` months of year `y`. -/
def cumDays (y : Nat) : Nat → Nat
  | 0 => 0
  | m + 1 => cumDays y m + daysInMonth y (m + 1)

/-- Number of leap years strictly before year `y` (from year 1). -/
def leapsBefore (y : Nat) : Nat := (y - 1) / 4 - (y - 1) / 100 + (y - 1) / 400

/-- Rata-die day number: 0001-01-01 ↦ 0. -/
def rataDie (t : PDate) : Nat :=
  365 * (t.year - 1) + leapsBefore t.year + cumDays t.year (t.month - 1) + t.day - 1

/-- Python's `datetime.weekday()`: Monday = 0 … Sunday = 6.
0001-01-01 (rata die 0) is a Monday in the proleptic Gregorian calendar. -/
def pyWeekday (t : PDate) : Nat := rataDie t % 7

/-- `strftime("%Y-%m-%d")`. -/
def fmtDate (t : PDate) : List Char :=
  pad4 t.year ++ '-' :: pad2 t.month ++ '-' :: pad2 t.day

/-! ## `TimeProcessor._extract_time` (services/timeprocessor.py)

The three time regexes are embedded as scanners over the character list.
`re.findall(p, text)` followed by `matches[0]` is the leftmost match of
`p`, with Python's greedy/backtracking semantics for `\d{1,2}` (try two
digits, fall back to one when the rest of the pattern fails). -/

/-- Parse exactly two ASCII digits. -/
def twoDigits : List Char → Option (Nat × List Char)
  | a :: b :: r => if isDig a && isDig b then some (10 * digVal a + digVal b, r) else none
  | _ => none

/-- Parse exactly one ASCII digit. -/
def oneDigit : List Char → Option (Nat × List Char)
  | a :: r => if isDig a then some (digVal a, r) else none
  | _ => none

/-- Skip `\s*`. -/
def skipWs : List Char → List Char
  | [] => []
  | c :: r => if isWs c then skipWs r else c :: r

/-- Drop one optional `'.'` (`\.?` at the end of the pattern). -/
def optDot : List Char → List Char
  | '.' :: r => r
  | r => r

/-- Match `\.?m\.?` (with the regex's backtracking: a consumed `'.'` must be
followed by `'m'`, otherwise the optional dot is not taken and the `'m'`
must be at the current position). -/
def amPmTail : List Char → Option (List Char)
  | '.' :: r =>
    match r with
    | 'm' :: r2 => some (optDot r2)
    | _ => none
  | 'm' :: r => some (optDot r)
  | _ => none

/-- Match `[ap]\.?m\.?` and return the `[ap]` character (the only part of
the captured group the source inspects is whether `'a'`/`'p'` occurs in it,
which for this group is determined by its first character). -/
def amPm : List Char → Option Char
  | c :: r => if c == 'a' || c == 'p' then (amPmTail r).map (fun _ => c) else none
  | [] => none

/-- After the hour of pattern `(\d{1,2}):(\d{2})\s*([ap]\.?m\.?)`:
match `:(\d{2})\s*([ap]\.?m\.?)`. -/
def p1Rest (h : Nat) : List Char → Option (Nat × Nat × Char)
  | c :: r2 =>
    if c = ':' then
      match twoDigits r2 with
      | some (m, r3) => (amPm (skipWs r3)).map (fun mk => (h, m, mk))
      | none => none
    else none
  | [] => none

/-- Pattern `(\d{1,2}):(\d{2})\s*([ap]\.?m\.?)` anchored at the head. -/
def p1At (l : List Char) : Option (Nat × Nat × Char) :=
  match twoDigits l with
  | some (h, r) =>
    match p1Rest h r with
    | some v => some v
    | none =>
      match oneDigit l with
      | some (h1, r1) => p1Rest h1 r1
      | none => none
  | none =>
    match oneDigit l with
    | some (h1, r1) => p1Rest h1 r1
    | none => none

/-- Leftmost match of pattern 1. -/
def scan1 : List Char → Option (Nat × Nat × Char)
  | [] => none
  | c :: r =>
    match p1At (c :: r) with
    | some v => some v
    | none => scan1 r

/-- After the hour of pattern `(\d{1,2})\s*([ap]\.?m\.?)`. -/
def p2Rest (h : Nat) (r : List Char) : Option (Nat × Char) :=
  (amPm (skipWs r)).map (fun mk => (h, mk))

/-- Pattern `(\d{1,2})\s*([ap]\.?m\.?)` anchored at the head. -/
def p2At (l : List Char) : Option (Nat × Char) :=
  match twoDigits l with
  | some (h, r) =>
    match p2Rest h r with
    | some v => some v
    | none =>
      match oneDigit l with
      | some (h1, r1) => p2Rest h1 r1
      | none => none
  | none =>
    match oneDigit l with
    | some (h1, r1) => p2Rest h1 r1
    | none => none

/-- Leftmost match of pattern 2. -/
def scan2 : List Char → Option (Nat × Char)
  | [] => none
  | c :: r =>
    match p2At (c :: r) with
    | some v => some v
    | none => scan2 r

/-- After the hour of pattern `(\d{1,2}):(\d{2})`. -/
def p3Rest (h : Nat) : List Char → Option (Nat × Nat)
  | c :: r2 => if c = ':' then (twoDigits r2).map (fun p => (h, p.1)) else none
  | [] => none

/-- Pattern `(\d{1,2}):(\d{2})` anchored at the head. -/
def p3At (l : List Char) : Option (Nat × Nat) :=
  match twoDigits l with
  | some (h, r) =>
    match p3Rest h r with
    | some v => some v
    | none =>
      match oneDigit l with
      | some (h1, r1) => p3Rest h1 r1
      | none => none
  | none =>
    match oneDigit l with
    | some (h1, r1) => p3Rest h1 r1
    | none => none

/-- Leftmost match of pattern 3. -/
def scan3 : List Char → Option (Nat × Nat)
  | [] => none
  | c :: r =>
    match p3At (c :: r) with
    | some v => some v
    | none => scan3 r

/-- The am/pm → 24-hour conversion of the source:
`if 'p' in am_pm and hour < 12: hour += 12 elif 'a' in am_pm and hour == 12:
hour = 0`. -/
def amPmAdjust (mk : Char) (h : Nat) : Nat :=
  if mk == 'p' && decide (h < 12) then h + 12
  else if mk == 'a' && h == 12 then 0
  else h

/-- The hour/minute produced by the three-pattern cascade of
`_extract_time`, before formatting (patterns tried in source order; the
`len(match)` dispatch in the source is equivalent to per-pattern handling
because pattern 2's second group starts with `a`/`p` and pattern 3's is
numeric). -/
def extractTimeHM (l : List Char) : Option (Nat × Nat) :=
  match scan1 l with
  | some (h, m, mk) => some (amPmAdjust mk h, m)
  | none =>
    match scan2 l with
    | some (h, mk) => some (amPmAdjust mk h, 0)
    | none =>
      match scan3 l with
      | some (h, m) => some (h, m)
      | none => none

/-- `f"{hour:02d}:{minute:02d}"`. -/
def fmtTimeL (h m : Nat) : List Char := pad2 h ++ ':' :: pad2 m

/-- `f"{hour:02d}:{minute:02d}"` as a string. -/
def fmtTime (h m : Nat) : String := ⟨fmtTimeL h m⟩

/-- `TimeProcessor._extract_time`: numeric patterns first, then the named
fallback periods, else `None`. -/
def extract_time (text : String) : Option String :=
  let t := lowerStr text.toList
  match extractTimeHM t with
  | some (h, m) => some (fmtTime h m)
  | none =>
    if hasSub "noon" t then some "12:00"
    else if hasSub "midnight" t then some "00:00"
    else if hasSub "morning" t then some "09:00"
    else if hasSub "afternoon" t then some "14:00"
    else if hasSub "evening" t then some "18:00"
    else if hasSub "night" t then some "20:00"
    else none

/-! ## `TimeProcessor._extract_date` (services/timeprocessor.py) -/

/-- After the first group of `(\d{1,2})[/\-](\d{1,2})`:
match `[/\-](\d{1,2})`. -/
def d2Rest (a : Nat) : List Char → Option (Nat × Nat)
  | c :: r2 =>
    if c == '/' || c == '-' then
      match twoDigits r2 with
      | some (b, _) => some (a, b)
      | none =>
        match oneDigit r2 with
        | some (b, _) => some (a, b)
        | none => none
    else none
  | [] => none

/-- Pattern `(\d{1,2})[/\-](\d{1,2})` anchored at the head. -/
def d2At (l : List Char) : Option (Nat × Nat) :=
  match twoDigits l with
  | some (a, r) =>
    match d2Rest a r with
    | some v => some v
    | none =>
      match oneDigit l with
      | some (a1, r1) => d2Rest a1 r1
      | none => none
  | none =>
    match oneDigit l with
    | some (a1, r1) => d2Rest a1 r1
    | none => none

/-- Leftmost match of the two-component date pattern. -/
def scanD2 : List Char → Option (Nat × Nat)
  | [] => none
  | c :: r =>
    match d2At (c :: r) with
    | some v => some v
    | none => scanD2 r

/-- Parse exactly `n` ASCII digits, returning their value. -/
def nDigits : Nat → List Char → Option (Nat × List Char)
  | 0, l => some (0, l)
  | n + 1, c :: r =>
    if isDig c then
      match nDigits n r with
      | some (v, r2) => some (digVal c * 10 ^ n + v, r2)
      | none => none
    else none
  | _ + 1, [] => none

/-- The year group `(\d{2,4})` of the three-component pattern (greedy:
four digits, then three, then two). -/
def yearDigits (l : List Char) : Option Nat :=
  match nDigits 4 l with
  | some (v, _) => some v
  | none =>
    match nDigits 3 l with
    | some (v, _) => some v
    | none =>
      match nDigits 2 l with
      | some (v, _) => some v
      | none => none

/-- After the first two groups of
`(\d{1,2})[/\-](\d{1,2})[/\-](\d{2,4})`: match `[/\-](\d{2,4})`. -/
def d3Rest2 (a b : Nat) : List Char → Option (Nat × Nat × Nat)
  | c :: r2 =>
    if c == '/' || c == '-' then (yearDigits r2).map (fun y => (a, b, y))
    else none
  | [] => none

/-- After the first group of the three-component pattern:
match `[/\-](\d{1,2})[/\-](\d{2,4})`. -/
def d3Rest1 (a : Nat) : List Char → Option (Nat × Nat × Nat)
  | c :: r2 =>
    if c == '/' || c == '-' then
      match twoDigits r2 with
      | some (b, r3) =>
        match d3Rest2 a b r3 with
        | some v => some v
        | none =>
          match oneDigit r2 with
          | some (b1, r4) => d3Rest2 a b1 r4
          | none => none
      | none =>
        match oneDigit r2 with
        | some (b1, r4) => d3Rest2 a b1 r4
        | none => none
    else none
  | [] => none

/-- Pattern `(\d{1,2})[/\-](\d{1,2})[/\-](\d{2,4})` anchored at the head. -/
def d3At (l : List Char) : Option (Nat × Nat × Nat) :=
  match twoDigits l with
  | some (a, r) =>
    match d3Rest1 a r with
    | some v => some v
    | none =>
      match oneDigit l with
      | some (a1, r1) => d3Rest1 a1 r1
      | none => none
  | none =>
    match oneDigit l with
    | some (a1, r1) => d3Rest1 a1 r1
    | none => none

/-- Leftmost match of the three-component date pattern. -/
def scanD3 : List Char → Option (Nat × Nat × Nat)
  | [] => none
  | c :: r =>
    match d3At (c :: r) with
    | some v => some v
    | none => scanD3 r

/-- The numeric-pattern block at the end of `_extract_date`: patterns are
tried in source order (two-component first); only the first match of a
pattern is considered, and an invalid calendar date makes the loop
`continue` with the next pattern. -/
def dateFromPatterns (today : PDate) (t : List Char) : Option (List Char) :=
  let fromD2 : Option (List Char) :=
    match scanD2 t with
    | some (mo, dy) =>
      let yr := if mo < today.month ∨ (mo = today.month ∧ dy < today.day)
                then today.year + 1 else today.year
      if dateValid yr mo dy then some (fmtDate ⟨yr, mo, dy⟩) else none
    | none => none
  match fromD2 with
  | some s => some s
  | none =>
    match scanD3 t with
    | some (mo, dy, yRaw) =>
      let yr := if yRaw < 100 then yRaw + 2000 else yRaw
      if dateValid yr mo dy then some (fmtDate ⟨yr, mo, dy⟩) else none
    | none => none

/-- The weekday dictionary of `_extract_date`, in insertion order. -/
def weekdayNames : List (String × Nat) :=
  [("monday", 0), ("tuesday", 1), ("wednesday", 2), ("thursday", 3),
   ("friday", 4), ("saturday", 5), ("sunday", 6)]

/-- First weekday name (in dictionary order) occurring in the text. -/
def weekdayHit (t : List Char) : Option (String × Nat) :=
  weekdayNames.find? (fun p => hasSub p.1 t)

/-- The weekday branch of `_extract_date`, given the first weekday name
found in the text. -/
def weekdayOffset (today : PDate) (t : List Char) (day : String) (dayNum : Nat) : Nat :=
  let tw := pyWeekday today
  let du0 := (dayNum + 7 - tw) % 7
  let du1 := if hasSub ("next " ++ day) t then du0 + 7 else du0
  if du1 = 0 ∧ ¬ hasSub "next" t then 7 else du1

/-- `TimeProcessor._extract_date` with `self.today = today`. -/
def extract_date (today : PDate) (text : String) : Option String :=
  let t := lowerStr text.toList
  if hasSub "today" t then some ⟨fmtDate today⟩
  else if hasSub "tomorrow" t then some ⟨fmtDate (addDays today 1)⟩
  else if hasSub "day after tomorrow" t then some ⟨fmtDate (addDays today 2)⟩
  else
    match weekdayHit t with
    | some (day, dayNum) => some ⟨fmtDate (addDays today (weekdayOffset today t day dayNum))⟩
    | none =>
      if hasSub "next week" t || hasSub "in a week" t then
        some ⟨fmtDate (addDays today 7)⟩
      else if hasSub "next month" t then
        some ⟨fmtDate (addDays today 30)⟩
      else (dateFromPatterns today t).map (fun l => ⟨l⟩)

/-! ## `TimeProcessor._extract_recurrence` (services/timeprocessor.py) -/

/-- Match the literal characters of `pat` at the head, returning the rest. -/
def litAt : List Char → List Char → Option (List Char)
  | [], l => some l
  | _ :: _, [] => none
  | p :: ps, c :: cs => if p == c then litAt ps cs else none

/-- Match `\s+`, returning the rest. -/
def ws1 : List Char → Option (List Char)
  | c :: r => if isWs c then some (skipWs r) else none
  | [] => none

/-- Match `every\s+<unit>` anchored at the head. -/
def everyUnitAt (unit : List Char) (l : List Char) : Bool :=
  match litAt "every".toList l with
  | some r1 =>
    match ws1 r1 with
    | some r2 => (litAt unit r2).isSome
    | none => false
  | none => false

/-- `re.search(r'every\s+<unit>|<alt>', text)` as a truth value. -/
def searchEveryOr (unit alt : String) (t : List Char) : Bool :=
  (List.range (t.length + 1)).any (fun i => everyUnitAt unit.toList (t.drop i)) ||
    hasSub alt t

/-- Take the maximal run of ASCII digits (`(\d+)`), returning the digit
characters and the rest; fails if there is none. -/
def digitRun1 : List Char → Option (List Char × List Char)
  | [] => none
  | c :: r =>
    if isDig c then
      match digitRun1 r with
      | some (ds, rest) => some (c :: ds, rest)
      | none => some ([c], r)
    else none

/-- Match `every\s+(\d+)\s+<unit>` anchored at the head, returning the
captured digit characters. -/
def everyNumUnitAt (unit : List Char) (l : List Char) : Option (List Char) :=
  match litAt "every".toList l with
  | some r1 =>
    match ws1 r1 with
    | some r2 =>
      match digitRun1 r2 with
      | some (ds, r3) =>
        match ws1 r3 with
        | some r4 => if (litAt unit r4).isSome then some ds else none
        | none => none
      | none => none
    | none => none
  | none => none

/-- Leftmost match of `every\s+(\d+)\s+<unit>`, returning group 1. -/
def scanEveryNum (unit : String) : List Char → Option (List Char)
  | [] => none
  | c :: r =>
    match everyNumUnitAt unit.toList (c :: r) with
    | some ds => some ds
    | none => scanEveryNum unit r

/-- `TimeProcessor._extract_recurrence`. -/
def extract_recurrence (text : String) : Option String :=
  let t := lowerStr text.toList
  if searchEveryOr "day" "daily" t then some "daily"
  else if searchEveryOr "week" "weekly" t then some "weekly"
  else if searchEveryOr "month" "monthly" t then some "monthly"
  else
    match (weekdayNames.map Prod.fst).find? (fun d => hasSub ("every " ++ d) t) with
    | some d => some ("weekly-" ++ d)
    | none =>
      match scanEveryNum "day" t with
      | some ds => some ("every-" ++ ⟨ds⟩ ++ "-days")
      | none =>
        match scanEveryNum "week" t with
        | some ds => some ("every-" ++ ⟨ds⟩ ++ "-weeks")
        | none =>
          match scanEveryNum "month" t with
          | some ds => some ("every-" ++ ⟨ds⟩ ++ "-months")
          | none => none

/-- The extractor's result record (`parse_natural_time`'s dictionary). -/
structure TemporalExtractionResult where
  date : Option String
  time : Option String
  recurrence : Option String
deriving DecidableEq, Repr

/-- `TimeProcessor.parse_natural_time` with `self.today = today`. -/
def parse_natural_time (today : PDate) (text : String) : TemporalExtractionResult :=
  ⟨extract_date today text, extract_time text, extract_recurrence text⟩

/-! ## Recurrence normalizer (`RepeatFrequency`, `parse_time_interval`)

`RepeatFrequency` is `database/models.py`.  `parse_time_interval` is
invoked as `self.llm_processor.parse_time_interval` from
`ReminderService.set_reminder` and `set_recurring_reminder`
(services/reminder.py), but no definition of it appears under src/
(llm/processor.py elides it), so it is modelled from the spec, §4.2. -/

/-- `RepeatFrequency` from database/models.py. -/
inductive RepeatFrequency where
  | NONE
  | DAILY
  | WEEKLY
  | MONTHLY
  | CUSTOM
deriving DecidableEq, Repr

/-- First maximal run of ASCII digits anywhere in the text, as a value. -/
def firstIntOpt : List Char → Option Nat
  | [] => none
  | c :: r =>
    match digitRun1 (c :: r) with
    | some (ds, _) => some (ds.foldl (fun acc d => 10 * acc + digVal d) 0)
    | none => firstIntOpt r

/-- Modelled from the spec: `LLMProcessor.parse_time_interval`, the
recurrence normalizer called by `ReminderService.set_recurring_reminder`
and by `set_reminder` for custom `repeat` values; its definition is
missing from src/ (llm/processor.py only elides it with comments).
Spec §4.2: lower-case the phrase; "minute" → CUSTOM with the first
integer (default 60) as minutes; else "hour" → CUSTOM with first integer
(default 1) × 60; else "day"/"daily" → DAILY, 1440; else "week"/"weekly"
→ WEEKLY, 10080; else "month"/"monthly" → MONTHLY, 43200; else the
deliberate fallback DAILY, 1440.  Total by construction: it never
fails. -/
def parse_time_interval (phrase : String) : Nat × RepeatFrequency :=
  let p := lowerStr phrase.toList
  if hasSub "minute" p then ((firstIntOpt p).getD 60, .CUSTOM)
  else if hasSub "hour" p then (((firstIntOpt p).getD 1) * 60, .CUSTOM)
  else if hasSub "day" p || hasSub "daily" p then (1440, .DAILY)
  else if hasSub "week" p || hasSub "weekly" p then (10080, .WEEKLY)
  else if hasSub "month" p || hasSub "monthly" p then (43200, .MONTHLY)
  else (1440, .DAILY)

/-- The `repeat`-handling of `ReminderService.set_reminder`
(services/reminder.py, lines 44-60): the frequency/interval a reminder is
stored with, given the `repeat` argument (`"none"` when absent). -/
def setReminderRepeatSpec (rpt : String) : RepeatFrequency × Nat :=
  if lowerStr rpt.toList = "none".toList then (.NONE, 0)
  else if lowerStr rpt.toList = "daily".toList then (.DAILY, 0)
  else if lowerStr rpt.toList = "weekly".toList then (.WEEKLY, 0)
  else if lowerStr rpt.toList = "monthly".toList then (.MONTHLY, 0)
  else
    let (mins, freq) := parse_time_interval rpt
    (freq, mins)

/-! ## Function-call schema registry (`FUNCTION_SCHEMAS`, llm/processor.py) -/

/-- One registered operation: name, required and optional parameters. -/
structure FSchema where
  name : String
  required : List String
  optional : List String
deriving DecidableEq, Repr

/-- `FUNCTION_SCHEMAS` from llm/processor.py (names and parameter
contracts; descriptions and types elided). -/
def FUNCTION_SCHEMAS : List FSchema :=
  [⟨"setReminder", ["message", "time", "date"], ["repeat"]⟩,
   ⟨"getReminder", [], ["date_range"]⟩,
   ⟨"scheduleEvent", ["title", "date", "time"], ["location", "participants"]⟩,
   ⟨"getUpcomingEvents", [], ["date_range"]⟩,
   ⟨"cancelEvent", ["event_title"], []⟩,
   ⟨"createNotionNote", ["title", "content", "parent_page_title"], []⟩,
   ⟨"createNotionTable", ["title", "parent_page_title", "properties_schema"], []⟩,
   ⟨"addNotionTableRow", ["database_title", "entry_data"], []⟩]

/-- The registered operation names. -/
def registryNames : List String := FUNCTION_SCHEMAS.map (·.name)

/-! ## `execute_function_call` (api/routes.py)

Arguments are embedded as an association list of string keys to string
values (the object-valued arguments `properties_schema` / `entry_data`
are carried as opaque strings — the dispatcher never inspects their
structure).  The Notion domain service is an oracle: each operation
either returns a value or raises (`SvcOut.raise`), and the embedding
records every service operation actually invoked. -/

/-- A `FunctionCallRequest` as produced by `LLMProcessor._process_response`. -/
structure Call where
  name : String
  args : List (String × String)
deriving DecidableEq, Repr

/-- Python `dict.get(k)`: the value at the first matching key, if any. -/
def argGet (args : List (String × String)) (k : String) : Option String :=
  match args with
  | [] => none
  | (k', v) :: rest => if k' == k then some v else argGet rest k

/-- Python truthiness of an optional string (`None` and `""` are falsy). -/
def pyTruthy : Option String → Bool
  | none => false
  | some s => s ≠ ""

/-- Python f-string rendering of a possibly-`None` value. -/
def optStr : Option String → String
  | none => "None"
  | some s => s

/-- A `FunctionCallResult` dictionary (only the `status` and `message`
fields are ever read by the webhook; extra payload fields elided). -/
structure ResultD where
  status : String
  message : String
deriving DecidableEq, Repr

/-- Outcome of a call into an external collaborator: a value, or a raised
exception. -/
inductive SvcOut (α : Type) where
  | ok (a : α)
  | raise
deriving DecidableEq, Repr

/-- The Notion domain-service oracle (`NotionService` methods used by
`execute_function_call`). -/
structure NotionEnv where
  findPage : String → SvcOut (Option String)
  createNote : String → String → String → SvcOut ResultD
  createTable : String → String → String → SvcOut ResultD
  addRow : String → String → SvcOut ResultD

/-- A record of a domain-service operation actually invoked. -/
inductive SvcOp where
  | findPage (title : String)
  | createNote (title content parentId : String)
  | createTable (title schema parentId : String)
  | addRow (databaseId entryData : String)
deriving DecidableEq, Repr

/-- Outcome of the `try:` body of `execute_function_call`. -/
inductive CoreOut where
  | res (r : ResultD)
  | raised
deriving DecidableEq, Repr

/-- The `except`-branch result of `execute_function_call`. -/
def internalErrorResult : ResultD :=
  ⟨"error", "Sorry, an internal error occurred while performing that action."⟩

/-- The `try:` body of `execute_function_call` (api/routes.py, lines
417-527), together with the domain-service operations invoked.  The
internal-bot branches are the source's simulated implementations (the
real service calls are commented out in the source); the Notion branches
call the `NotionEnv` oracle. -/
def execCore (env : NotionEnv) (c : Call) : CoreOut × List SvcOp :=
  let args := c.args
  if c.name == "setReminder" then
    (.res ⟨"success", "Reminder '" ++ optStr (argGet args "message") ++ "' set."⟩, [])
  else if c.name == "getReminder" then
    (.res ⟨"success", "Found 1 reminders."⟩, [])
  else if c.name == "scheduleEvent" then
    (.res ⟨"success", "Event '" ++ optStr (argGet args "title") ++ "' scheduled."⟩, [])
  else if c.name == "getUpcomingEvents" then
    (.res ⟨"success", "Found 1 events."⟩, [])
  else if c.name == "cancelEvent" then
    (.res ⟨"success", "Event '" ++ optStr (argGet args "event_title") ++ "' cancelled."⟩, [])
  else if c.name == "createNotionNote" then
    let parentTitle := argGet args "parent_page_title"
    if pyTruthy parentTitle then
      let t := optStr parentTitle
      match env.findPage t with
      | .raise => (.raised, [.findPage t])
      | .ok pid =>
        if ¬ pyTruthy pid then
          (.res ⟨"error", "Could not find the parent page '" ++ t ++ "' in your Notion."⟩,
           [.findPage t])
        else
          let title := (argGet args "title").getD "Untitled Note"
          let content := (argGet args "content").getD ""
          match env.createNote title content (optStr pid) with
          | .raise => (.raised, [.findPage t, .createNote title content (optStr pid)])
          | .ok r => (.res r, [.findPage t, .createNote title content (optStr pid)])
    else (.res ⟨"error", "Parent page title was missing or page not found."⟩, [])
  else if c.name == "createNotionTable" then
    let parentTitle := argGet args "parent_page_title"
    if pyTruthy parentTitle then
      let t := optStr parentTitle
      match env.findPage t with
      | .raise => (.raised, [.findPage t])
      | .ok pid =>
        if ¬ pyTruthy pid then
          (.res ⟨"error", "Could not find the parent page '" ++ t ++ "' in your Notion."⟩,
           [.findPage t])
        else
          let title := (argGet args "title").getD "Untitled Table"
          let schema := (argGet args "properties_schema").getD ""
          match env.createTable title schema (optStr pid) with
          | .raise => (.raised, [.findPage t, .createTable title schema (optStr pid)])
          | .ok r => (.res r, [.findPage t, .createTable title schema (optStr pid)])
    else (.res ⟨"error", "Parent page title was missing or page not found."⟩, [])
  else if c.name == "addNotionTableRow" then
    let dbTitle := argGet args "database_title"
    let entry := (argGet args "entry_data").getD ""
    if ¬ pyTruthy dbTitle then
      (.res ⟨"error", "Database title missing or database not found."⟩, [])
    else
      match env.addRow (optStr dbTitle) entry with
      | .raise => (.raised, [.addRow (optStr dbTitle) entry])
      | .ok r => (.res r, [.addRow (optStr dbTitle) entry])
  else
    (.res ⟨"error", "Sorry, I don't know how to perform the action: " ++ c.name⟩, [])

/-- `execute_function_call` (api/routes.py): the `try:` body with its
`except Exception` wrapper, which turns any raised exception into an
ERROR result — exceptions never propagate out. -/
def execute_function_call (env : NotionEnv) (c : Call) : ResultD × List SvcOp :=
  match execCore env c with
  | (.res r, ops) => (r, ops)
  | (.raised, ops) => (internalErrorResult, ops)

/-! ## The function-call dispatch loop (api/routes.py, webhook lines 300-326) -/

/-- `requires_notion_auth` (api/routes.py, lines 198-204). -/
def requiresNotionAuth (name : String) : Bool :=
  startsList "notion".toList (lowerStr name.toList) ||
    (name == "createNotionNote" || name == "createNotionTable" || name == "addNotionTableRow")

/-- The auth-needed reply text built on the short-circuit path:
`f"To {func_name.replace('Notion', '').lower()}, I need access to your
Notion. Please use the link above to connect."`. -/
def authNeededText (name : String) : String :=
  "To " ++ ⟨lowerStr (replaceSub "Notion".toList [] name.toList)⟩ ++
    ", I need access to your Notion. Please use the link above to connect."

/-- Configuration of the dispatch loop: the user's Notion token, whether
`NOTION_CLIENT_ID` is configured, whether the ngrok tunnel is available
(`handle_notion_login` sends the auth link only when `get_ngrok_url`
succeeds), and the Notion service oracle. -/
structure DispatchCfg where
  notionToken : Option String
  notionClientId : Bool
  ngrokUrl : Option String
  env : NotionEnv

/-- Observable state of one run of the dispatch loop. -/
structure DispatchSt where
  executed : List (String × ResultD)
  requiresReAuth : Option String
  finalText : Option String
  loginLinks : Nat
  invoked : List Call
  ops : List SvcOp
deriving DecidableEq, Repr

/-- The initial loop state (`executed_results = []`,
`requires_re_auth = None`, `final_response_text` untouched). -/
def initSt : DispatchSt := ⟨[], none, none, 0, [], []⟩

/-- `handle_notion_login`: sends the auth link iff the ngrok URL is
obtainable (it never raises: `send_auth_link` swallows send errors). -/
def loginLinkCount (ngrokUrl : Option String) : Nat :=
  match ngrokUrl with
  | some _ => 1
  | none => 0

/-- The `for func_call in function_calls:` loop of the webhook.  On a
Notion-requiring call without a (truthy) token while `NOTION_CLIENT_ID`
is configured: send the login link, overwrite the reply text, set
`requires_re_auth`, clear `executed_results`, and `break`.  Otherwise
execute the call and append its result. -/
def dispatchLoop (cfg : DispatchCfg) : List Call → DispatchSt → DispatchSt
  | [], st => st
  | c :: rest, st =>
    if requiresNotionAuth c.name ∧ ¬ pyTruthy cfg.notionToken ∧ cfg.notionClientId then
      { st with
        loginLinks := st.loginLinks + loginLinkCount cfg.ngrokUrl,
        finalText := some (authNeededText c.name),
        requiresReAuth := some "notion",
        executed := [] }
    else
      dispatchLoop cfg rest
        { st with
          executed := st.executed ++ [(c.name, (execute_function_call cfg.env c).1)],
          invoked := st.invoked ++ [c],
          ops := st.ops ++ (execute_function_call cfg.env c).2 }

/-- Run the dispatch loop from the initial state. -/
def dispatchCalls (cfg : DispatchCfg) (calls : List Call) : DispatchSt :=
  dispatchLoop cfg calls initSt

/-! ## Result reconciliation (api/routes.py, webhook lines 328-375) -/

/-- `friendly_phrases` (api/routes.py, lines 98-101). -/
def friendlyPhrases : List String :=
  ["Got it! 👍", "All set! ✅", "Done! 😊", "No worries, I've handled that! ✨",
   "Okay, consider it done!", "Roger that!", "Affirmative! ✅"]

/-- `random.choice`, with the pseudo-random draw supplied as an index. -/
def choice (rand : Nat) (l : List String) : String := (l.get? (rand % l.length)).getD ""

/-- The result-reconciliation block of the webhook: given the LLM's
initial `response_text` and the dispatch-loop state, compute
`final_response_text` (before the final empty-reply default). -/
def reconcile (rand : Nat) (initialText : String) (st : DispatchSt) : String :=
  match st.requiresReAuth with
  | some _ => st.finalText.getD initialText
  | none =>
    if st.executed.isEmpty then initialText
    else
      let successes := st.executed.filter (fun p => p.2.status == "success")
      let failures := st.executed.filter (fun p => p.2.status != "success")
      if initialText == "" then
        match successes, failures with
        | s :: _, [] => s.2.message
        | _, f :: _ => f.2.message
        | [], [] => "Okay."
      else
        match successes, failures with
        | s :: _, [] =>
          let fm := s.2.message
          if fm != "" ∧ fm.length > 20 then fm
          else if ¬ friendlyPhrases.contains initialText then
            initialText ++ "\n\n" ++ choice rand friendlyPhrases
          else initialText
        | _, f :: _ =>
          let fm := f.2.message
          initialText ++ "\n\n⚠️ " ++ (if fm != "" then fm else "I encountered an issue.")
        | [], [] => initialText

/-- The empty-reply default of lines 373-375. -/
def orDefaultReply (s : String) : String :=
  if s == "" then "Sorry, I'm not sure how to respond to that." else s

/-! ## The webhook turn controller (api/routes.py, `webhook`)

The webhook handler is embedded for text messages (photo handling is a
stub in the source).  External collaborators are oracles:

* `llm` — the outcome of `LLMProcessor.process_message`, which is total
  (it catches all its own exceptions and returns an apology response);
* `env` — the Notion service used by the dispatch loop;
* `setupOutcome` / `setupOutcome2` — the two possible
  `setup_initial_dashboard` calls (value returned, or raise);
* `persistO n` — whether the `n`-th `crud.update_session_history` call
  succeeds (a `False` models a raised database exception);
* `sendO n` — whether the `n`-th unguarded `telegram_bot.send_message`
  succeeds (a `False` models a raised transport exception; sends inside
  `send_auth_link` and the apology send are wrapped in their own
  `try/except` in the source and cannot raise);
* `ngrokUrl` — `get_ngrok_url()` (it catches its own errors and returns
  `None` on failure);
* `rand` — the pseudo-random draw for `random.choice`.

`crud.get_or_create_user` / `get_session_history` / `escape_markdown`
are modelled as reliable; `MarkdownV2` escaping is presentation-level
and elided from the sent text. -/

/-- The user row fields the webhook reads. -/
structure UserRec where
  notionToken : Option String
  setupComplete : Bool
  name : Option String

/-- The outcome of `LLMProcessor.process_message`. -/
structure LLMResp where
  responseText : String
  functionCalls : List Call

/-- Inputs and oracles of one webhook invocation. -/
structure WebIn where
  text : String
  user : UserRec
  llm : LLMResp
  notionClientId : Bool
  ngrokUrl : Option String
  env : NotionEnv
  setupOutcome : SvcOut Bool
  setupOutcome2 : SvcOut Bool
  persistO : Nat → Bool
  sendO : Nat → Bool
  rand : Nat

/-- Observable effects of one webhook invocation. -/
structure WebEff where
  history : List (String × String)
  sent : List String
  loginLinks : Nat
  llmCalls : Nat
  invoked : List Call
  ops : List SvcOp
  apologies : Nat
  persistIdx : Nat
  sendIdx : Nat

/-- The return value of the webhook handler. -/
inductive WebStatus where
  | okSuccess      -- `{"status": "success"}`
  | authRequired   -- `{"status": "AUTH_REQUIRED", "service": "notion"}`
  | startHandled   -- the `/start` early returns
  | internalError  -- the 500 response of the `except` branch
deriving DecidableEq, Repr

/-- Result of one webhook invocation. -/
structure WebOut where
  eff : WebEff
  status : WebStatus

/-- The initial (empty) effect record. -/
def initEff : WebEff := ⟨[], [], 0, 0, [], [], 0, 0, 0⟩

/-- An unguarded `telegram_bot.send_message`: delivers and continues, or
raises (second component `false`). -/
def doSend (w : WebIn) (e : WebEff) (msg : String) : WebEff × Bool :=
  if w.sendO e.sendIdx then
    ({ e with sent := e.sent ++ [msg], sendIdx := e.sendIdx + 1 }, true)
  else
    ({ e with sendIdx := e.sendIdx + 1 }, false)

/-- A `crud.update_session_history` call: appends and continues, or
raises (second component `false`). -/
def doPersist (w : WebIn) (e : WebEff) (role content : String) : WebEff × Bool :=
  if w.persistO e.persistIdx then
    ({ e with history := e.history ++ [(role, content)], persistIdx := e.persistIdx + 1 }, true)
  else
    ({ e with persistIdx := e.persistIdx + 1 }, false)

/-- The `except Exception` branch of the webhook: attempt the apology
send (itself guarded by `try/except`) and return the 500 response. -/
def exceptBranch (e : WebEff) : WebOut :=
  ⟨{ e with apologies := e.apologies + 1 }, .internalError⟩

/-- The apology text of the `except` branch (note the source's leading
space). -/
def apologyText : String :=
  " apologise, I encountered an unexpected error. Please try again later."

/-- Python's `str.split()` (split on whitespace runs, no empties). -/
def pySplit (s : String) : List String :=
  (s.split (fun c => isWs c)).filter (fun x => x ≠ "")

/-- The message-processing phase: history append, LLM call, dispatch,
reconciliation, assistant append, final send (webhook lines 275-387),
for a user record as updated by the gate phase. -/
def webhookProcess (w : WebIn) (user : UserRec) (e : WebEff) : WebOut :=
  let p1 := doPersist w e "user" w.text
  if ¬ p1.2 then exceptBranch p1.1
  else
    let e1 := { p1.1 with llmCalls := p1.1.llmCalls + 1 }
    let st := dispatchCalls ⟨user.notionToken, w.notionClientId, w.ngrokUrl, w.env⟩
                w.llm.functionCalls
    let e2 := { e1 with invoked := st.invoked, ops := st.ops,
                        loginLinks := e1.loginLinks + st.loginLinks }
    let finalText := orDefaultReply (reconcile w.rand w.llm.responseText st)
    let p2 := doPersist w e2 "assistant" finalText
    if ¬ p2.2 then exceptBranch p2.1
    else
      let p3 := doSend w p2.1 finalText
      if ¬ p3.2 then exceptBranch p3.1
      else ⟨p3.1, .okSuccess⟩

/-- The linking/setup gate (webhook lines 249-273) followed by the
processing phase. -/
def webhookGate (w : WebIn) (e : WebEff) : WebOut :=
  let afterFirst : SvcOut UserRec :=
    if pyTruthy w.user.notionToken ∧ ¬ w.user.setupComplete then
      match w.setupOutcome with
      | .raise => .raise
      | .ok b => .ok { w.user with setupComplete := b }
    else .ok w.user
  match afterFirst with
  | .raise => exceptBranch e
  | .ok user1 =>
    if ¬ pyTruthy w.user.notionToken then
      let e1 := { e with loginLinks := e.loginLinks + loginLinkCount w.ngrokUrl }
      let p := doSend w e1
        "Please link your Notion account using the message above to use Notion features."
      if ¬ p.2 then exceptBranch p.1 else ⟨p.1, .authRequired⟩
    else
      if ¬ user1.setupComplete then
        match w.setupOutcome2 with
        | .raise => exceptBranch e
        | .ok b2 => webhookProcess w { user1 with setupComplete := b2 } e
      else webhookProcess w user1 e

/-- The webhook handler (api/routes.py, `webhook`), for a text message. -/
def webhook (w : WebIn) : WebOut :=
  let e := initEff
  if startsList "/start".toList w.text.toList then
    let parts := pySplit w.text
    if parts.length > 1 then
      if parts.get? 1 = some "google_auth_success" then
        let p := doSend w e "✅ Your Google account linked successfully!"
        if ¬ p.2 then exceptBranch p.1 else ⟨p.1, .startHandled⟩
      else if parts.get? 1 = some "notion_auth_success" then
        let p := doSend w e "✅ Your Notion account linked successfully!"
        if ¬ p.2 then exceptBranch p.1 else ⟨p.1, .startHandled⟩
      else webhookGate w e        -- other `/start` parameters: `pass`, falls through
    else
      let hello := "Hello " ++ (if pyTruthy w.user.name then optStr w.user.name else "there") ++
        "! I'm Pai, your assistant. How can I help?"
      let p := doSend w e hello
      if ¬ p.2 then exceptBranch p.1 else ⟨p.1, .startHandled⟩
  else webhookGate w e

/-- The final reply computed on the happy path of the webhook for a text
message (composition of the dispatch loop, the reconciliation block and
the empty-reply default). -/
def webhookReply (w : WebIn) : String :=
  orDefaultReply (reconcile w.rand w.llm.responseText
    (dispatchCalls ⟨w.user.notionToken, w.notionClientId, w.ngrokUrl, w.env⟩
      w.llm.functionCalls))

/-! ## Concrete instances used by witnesses and counterexamples -/

/-- A benign Notion service: every page is found, every operation
succeeds. -/
def benignEnv : NotionEnv :=
  ⟨fun _ => .ok (some "pid123"),
   fun _ _ _ => .ok ⟨"success", "Note created in your Notion workspace."⟩,
   fun _ _ _ => .ok ⟨"success", "Table created in your Notion workspace."⟩,
   fun _ _ => .ok ⟨"success", "Row added to your Notion table."⟩⟩

/-- A Notion service whose `create_note_page` raises. -/
def raisingEnv : NotionEnv := { benignEnv with createNote := fun _ _ _ => .raise }

/-- A `createNotionNote` request. -/
def noteCall : Call :=
  ⟨"createNotionNote", [("title", "Idea"), ("content", "AI feedback"), ("parent_page_title", "Projects")]⟩

/-- A `setReminder` request (message only, as the LLM may emit it). -/
def reminderCall : Call := ⟨"setReminder", [("message", "buy milk")]⟩

/-- Dispatch configuration: user not linked, Notion OAuth configured,
ngrok available. -/
def unlinkedCfg : DispatchCfg := ⟨none, true, some "https://x.ngrok.app", benignEnv⟩

/-- Dispatch configuration: user linked, benign service. -/
def linkedCfg : DispatchCfg := ⟨some "secret-token", true, some "https://x.ngrok.app", benignEnv⟩

/-- Dispatch configuration: user linked, note creation raises. -/
def linkedRaisingCfg : DispatchCfg := ⟨some "secret-token", true, some "https://x.ngrok.app", raisingEnv⟩

/-- A baseline webhook input: linked, set-up user sending a plain text
message, all collaborators healthy. -/
def baseWebIn : WebIn :=
  ⟨"hi", ⟨some "secret-token", true, none⟩, ⟨"hello", []⟩, true,
   some "https://x.ngrok.app", benignEnv, .ok true, .ok true,
   fun _ => true, fun _ => true, 0⟩

/-- Webhook input whose first persistence call raises. -/
def persistFailWebIn : WebIn := { baseWebIn with persistO := fun _ => false }

/-- Webhook input from a user with no Notion token. -/
def unlinkedWebIn : WebIn := { baseWebIn with user := ⟨none, false, none⟩ }

/-! # Helper lemmas about the dispatch loop -/

/-- With a (truthy) Notion token the dispatch loop never short-circuits:
it invokes every call in order and appends the wrapper's result for each
one, touching nothing else. -/
theorem dispatchLoop_linked (cfg : DispatchCfg) (h : pyTruthy cfg.notionToken = true) :
    ∀ (calls : List Call) (st : DispatchSt),
      (dispatchLoop cfg calls st).invoked = st.invoked ++ calls ∧
      (dispatchLoop cfg calls st).executed =
        st.executed ++ calls.map (fun c => (c.name, (execute_function_call cfg.env c).1)) ∧
      (dispatchLoop cfg calls st).requiresReAuth = st.requiresReAuth ∧
      (dispatchLoop cfg calls st).finalText = st.finalText ∧
      (dispatchLoop cfg calls st).loginLinks = st.loginLinks := by
  intro calls
  induction calls with
  | nil => intro st; simp [dispatchLoop]
  | cons c rest ih =>
    intro st
    have hcond : ¬ (requiresNotionAuth c.name ∧ ¬ pyTruthy cfg.notionToken ∧ cfg.notionClientId) := by
      simp [h]
    simp only [dispatchLoop, if_neg hcond]
    rcases ih { st with
      executed := st.executed ++ [(c.name, (execute_function_call cfg.env c).1)],
      invoked := st.invoked ++ [c],
      ops := st.ops ++ (execute_function_call cfg.env c).2 } with ⟨h1, h2, h3, h4, h5⟩
    refine ⟨?_, ?_, ?_, ?_, ?_⟩
    · rw [h1]; simp
    · rw [h2]; simp
    · rw [h3]
    · rw [h4]
    · rw [h5]

/-- Running the loop over a batch of calls none of which requires Notion
auth behaves like the linked case on that batch. -/
theorem dispatchLoop_no_auth (cfg : DispatchCfg) :
    ∀ (calls : List Call), (∀ x ∈ calls, requiresNotionAuth x.name = false) →
      ∀ st : DispatchSt,
      (dispatchLoop cfg calls st).invoked = st.invoked ++ calls ∧
      (dispatchLoop cfg calls st).executed =
        st.executed ++ calls.map (fun c => (c.name, (execute_function_call cfg.env c).1)) ∧
      (dispatchLoop cfg calls st).requiresReAuth = st.requiresReAuth ∧
      (dispatchLoop cfg calls st).finalText = st.finalText ∧
      (dispatchLoop cfg calls st).loginLinks = st.loginLinks := by
  intro calls
  induction calls with
  | nil => intro _ st; simp [dispatchLoop]
  | cons c rest ih =>
    intro hall st
    have hc : requiresNotionAuth c.name = false := hall c (by simp)
    have hcond : ¬ (requiresNotionAuth c.name ∧ ¬ pyTruthy cfg.notionToken ∧ cfg.notionClientId) := by
      simp [hc]
    simp only [dispatchLoop, if_neg hcond]
    rcases ih (fun x hx => hall x (by simp [hx])) { st with
      executed := st.executed ++ [(c.name, (execute_function_call cfg.env c).1)],
      invoked := st.invoked ++ [c],
      ops := st.ops ++ (execute_function_call cfg.env c).2 } with ⟨h1, h2, h3, h4, h5⟩
    refine ⟨?_, ?_, ?_, ?_, ?_⟩
    · rw [h1]; simp
    · rw [h2]; simp
    · rw [h3]
    · rw [h4]
    · rw [h5]

/-- Short-circuit behaviour of the loop from an arbitrary state: with no
token and a configured client id, the first Notion-requiring call stops
the loop, clears the result list, sets the re-auth marker and the reply
text, and sends the login link. -/
theorem dispatchLoop_break (cfg : DispatchCfg)
    (hTok : pyTruthy cfg.notionToken = false) (hCid : cfg.notionClientId = true)
    (c : Call) (hc : requiresNotionAuth c.name = true) :
    ∀ (pre : List Call), (∀ x ∈ pre, requiresNotionAuth x.name = false) →
      ∀ (post : List Call) (st : DispatchSt),
      (dispatchLoop cfg (pre ++ c :: post) st).requiresReAuth = some "notion" ∧
      (dispatchLoop cfg (pre ++ c :: post) st).executed = [] ∧
      (dispatchLoop cfg (pre ++ c :: post) st).finalText = some (authNeededText c.name) ∧
      (dispatchLoop cfg (pre ++ c :: post) st).loginLinks =
        st.loginLinks + loginLinkCount cfg.ngrokUrl ∧
      (dispatchLoop cfg (pre ++ c :: post) st).invoked = st.invoked ++ pre := by
  intro pre
  induction pre with
  | nil =>
    intro _ post st
    simp [dispatchLoop, hc, hTok, hCid]
  | cons x pre' ih =>
    intro hall post st
    have hx : requiresNotionAuth x.name = false := hall x (by simp)
    have hcond : ¬ (requiresNotionAuth x.name ∧ ¬ pyTruthy cfg.notionToken ∧ cfg.notionClientId) := by
      simp [hx]
    simp only [List.cons_append, dispatchLoop, if_neg hcond, List.append_eq]
    rcases ih (fun y hy => hall y (by simp [hy])) post { st with
      executed := st.executed ++ [(x.name, (execute_function_call cfg.env x).1)],
      invoked := st.invoked ++ [x],
      ops := st.ops ++ (execute_function_call cfg.env x).2 } with ⟨h1, h2, h3, h4, h5⟩
    exact ⟨h1, h2, h3, h4, by rw [h5]; simp⟩

/-! # The claims -/

/-- C1: in a batch containing an external-workspace call
(`createNotionNote` / `createNotionTable` / `addNotionTableRow`, i.e.
`requires_notion_auth`) while the user has no linked Notion account (and
Notion OAuth is configured, with the login-link transport available),
the dispatch loop short-circuits at the first such call: the calls after
it are never executed, the result list is cleared so that the batch
yields exactly one ERROR outcome — the reply text instructing the user
to complete linking (which reconciliation passes through unchanged) —
and exactly one login link is sent before returning. -/
theorem c1_unlinked_notion_call_short_circuits (cfg : DispatchCfg)
    (pre post : List Call) (c : Call)
    (hTok : pyTruthy cfg.notionToken = false) (hCid : cfg.notionClientId = true)
    (hNgrok : cfg.ngrokUrl.isSome = true) (hc : requiresNotionAuth c.name = true)
    (hpre : ∀ x ∈ pre, requiresNotionAuth x.name = false) :
    (dispatchCalls cfg (pre ++ c :: post)).requiresReAuth = some "notion" ∧
    (dispatchCalls cfg (pre ++ c :: post)).executed = [] ∧
    (dispatchCalls cfg (pre ++ c :: post)).finalText = some (authNeededText c.name) ∧
    (dispatchCalls cfg (pre ++ c :: post)).loginLinks = 1 ∧
    (dispatchCalls cfg (pre ++ c :: post)).invoked = pre ∧
    (∀ rand initText,
      reconcile rand initText (dispatchCalls cfg (pre ++ c :: post)) = authNeededText c.name) := by
  rcases dispatchLoop_break cfg hTok hCid c hc pre hpre post initSt with ⟨h1, h2, h3, h4, h5⟩
  have hng : loginLinkCount cfg.ngrokUrl = 1 := by
    rcases h : cfg.ngrokUrl with _ | u
    · rw [h] at hNgrok; simp at hNgrok
    · rfl
  have hD : dispatchCalls cfg (pre ++ c :: post) = dispatchLoop cfg (pre ++ c :: post) initSt := rfl
  refine ⟨by rw [hD, h1], by rw [hD, h2], by rw [hD, h3],
          by rw [hD, h4, hng]; simp [initSt], by rw [hD, h5]; simp [initSt], ?_⟩
  intro rand initText
  simp [reconcile, hD, h1, h3]

/-- C1 witness: a batch of two calls whose first is `createNotionNote`,
dispatched for an unlinked user, yields the single auth-ERROR outcome
and executes neither call. -/
theorem c1_witness :
    (dispatchCalls unlinkedCfg [noteCall, reminderCall]).requiresReAuth = some "notion" ∧
    (dispatchCalls unlinkedCfg [noteCall, reminderCall]).executed = [] ∧
    (dispatchCalls unlinkedCfg [noteCall, reminderCall]).finalText =
      some (authNeededText "createNotionNote") ∧
    (dispatchCalls unlinkedCfg [noteCall, reminderCall]).loginLinks = 1 ∧
    (dispatchCalls unlinkedCfg [noteCall, reminderCall]).invoked = [] ∧
    (∀ rand initText,
      reconcile rand initText (dispatchCalls unlinkedCfg [noteCall, reminderCall]) =
        authNeededText "createNotionNote") :=
  c1_unlinked_notion_call_short_circuits unlinkedCfg [] [reminderCall] noteCall
    (by decide) (by decide) (by decide) (by decide) (by simp)

/-- C2: for every batch dispatched for a linked user, every call is
executed in order and yields its own result — a raised exception inside
the `try:` body of `execute_function_call` for one call becomes the
ERROR result for that call only (status `"error"`), aborts nothing, and
never propagates out of the loop, whose result list is exactly the
per-call map of the exception-catching wrapper. -/
theorem c2_domain_exception_is_isolated (cfg : DispatchCfg) (calls : List Call)
    (hTok : pyTruthy cfg.notionToken = true) :
    (dispatchCalls cfg calls).invoked = calls ∧
    (dispatchCalls cfg calls).executed =
      calls.map (fun c => (c.name, (execute_function_call cfg.env c).1)) ∧
    (dispatchCalls cfg calls).requiresReAuth = none ∧
    (∀ c : Call, (execCore cfg.env c).1 = .raised →
      (execute_function_call cfg.env c).1 = internalErrorResult) ∧
    internalErrorResult.status = "error" := by
  rcases dispatchLoop_linked cfg hTok calls initSt with ⟨h1, h2, h3, _, _⟩
  refine ⟨by simpa [initSt] using h1, by simpa [initSt] using h2,
          by simpa [initSt] using h3, ?_, rfl⟩
  intro c hr
  unfold execute_function_call
  rcases hco : execCore cfg.env c with ⟨co, ops⟩
  cases co with
  | res r => rw [hco] at hr; simp at hr
  | raised => simp

/-- C2 witness: a two-call batch whose first call's Notion service
raises — the first yields the internal-ERROR result, the second is still
executed and yields its normal success result. -/
theorem c2_witness :
    (dispatchCalls linkedRaisingCfg [noteCall, reminderCall]).invoked =
      [noteCall, reminderCall] ∧
    (dispatchCalls linkedRaisingCfg [noteCall, reminderCall]).executed =
      [("createNotionNote", internalErrorResult),
       ("setReminder", ⟨"success", "Reminder 'buy milk' set."⟩)] ∧
    (execCore linkedRaisingCfg.env noteCall).1 = .raised ∧
    (execute_function_call linkedRaisingCfg.env noteCall).1 = internalErrorResult := by
  have h := c2_domain_exception_is_isolated linkedRaisingCfg [noteCall, reminderCall] (by decide)
  refine ⟨h.1, ?_, by decide, h.2.2.2.1 noteCall (by decide)⟩
  rw [h.2.1]
  decide


/-- C3 counterexample: the claim also asserts that a request missing a
required argument is rejected with an ERROR result; but
`execute_function_call` performs no schema validation — `setReminder`
with an empty argument mapping (its required `message`, `time`, `date`
all absent) returns a SUCCESS result ("Reminder 'None' set."), not an
ERROR. -/
theorem c3_counterexample :
    (∃ s ∈ FUNCTION_SCHEMAS, s.name = "setReminder" ∧ "message" ∈ s.required) ∧
    argGet ([] : List (String × String)) "message" = none ∧
    (execute_function_call benignEnv ⟨"setReminder", []⟩).1 =
      ⟨"success", "Reminder 'None' set."⟩ ∧
    ¬ (execute_function_call benignEnv ⟨"setReminder", []⟩).1.status = "error" := by
  refine ⟨⟨⟨"setReminder", ["message", "time", "date"], ["repeat"]⟩, by decide⟩, ?_, ?_, ?_⟩
  · rfl
  · rfl
  · decide

/-- C3 (amended): a request naming an operation absent from the Schema
Registry is rejected by `execute_function_call` with a descriptive ERROR
result and invokes no domain-service operation; requests for registered
operations with missing required arguments are NOT validated at dispatch
(see the counterexample: they proceed and can even report success). -/
theorem c3_unknown_operation_rejected (env : NotionEnv) (c : Call)
    (h : ¬ c.name ∈ registryNames) :
    (execute_function_call env c).1 =
      ⟨"error", "Sorry, I don't know how to perform the action: " ++ c.name⟩ ∧
    (execute_function_call env c).2 = [] := by
  simp only [registryNames, FUNCTION_SCHEMAS, List.map, List.mem_cons,
    List.not_mem_nil, or_false, not_or] at h
  obtain ⟨n1, n2, n3, n4, n5, n6, n7, n8⟩ := h
  have e1 : (c.name == "setReminder") = false := by simpa using n1
  have e2 : (c.name == "getReminder") = false := by simpa using n2
  have e3 : (c.name == "scheduleEvent") = false := by simpa using n3
  have e4 : (c.name == "getUpcomingEvents") = false := by simpa using n4
  have e5 : (c.name == "cancelEvent") = false := by simpa using n5
  have e6 : (c.name == "createNotionNote") = false := by simpa using n6
  have e7 : (c.name == "createNotionTable") = false := by simpa using n7
  have e8 : (c.name == "addNotionTableRow") = false := by simpa using n8
  simp [execute_function_call, execCore, e1, e2, e3, e4, e5, e6, e7, e8]

/-- C3 witness: an unregistered operation name is rejected with the
descriptive error and no service operation. -/
theorem c3_witness :
    (execute_function_call benignEnv ⟨"frobnicate", []⟩).1 =
      ⟨"error", "Sorry, I don't know how to perform the action: frobnicate"⟩ ∧
    (execute_function_call benignEnv ⟨"frobnicate", []⟩).2 = [] :=
  c3_unknown_operation_rejected benignEnv ⟨"frobnicate", []⟩ (by decide)

/-- C5 counterexample: the webhook's dispatch loop performs no argument
enrichment — for the scenario message "Remind me to buy milk tomorrow at
8am" with a `setReminder` call whose args carry only the message, the
call is dispatched with exactly the LLM-supplied args: its `date` and
`time` arguments are absent, not "2025-03-28" / "08:00" as the claim
requires (the `TimeProcessor` is never consulted: routes.py imports it
commented-out). -/
theorem c5_counterexample :
    (dispatchCalls linkedCfg [reminderCall]).invoked = [reminderCall] ∧
    argGet reminderCall.args "date" = none ∧
    argGet reminderCall.args "time" = none ∧
    ¬ argGet reminderCall.args "date" = some "2025-03-28" := by
  refine ⟨?_, rfl, rfl, by decide⟩
  have h := dispatchLoop_linked linkedCfg (by decide) [reminderCall] initSt
  simpa [dispatchCalls, initSt] using h.1

/-- C5 (amended): the dispatcher passes every call's arguments through
unchanged (no enrichment stage exists in the webhook); separately, the
extractor itself — `TimeProcessor.parse_natural_time` — applied to
"Remind me to buy milk tomorrow at 8am" with today = 2025-03-27 does
yield date "2025-03-28" and time "08:00", with "buy milk" contained in
the text, but its output is never overlaid onto the dispatched
arguments. -/
theorem c5_no_enrichment_args_passed_unchanged (cfg : DispatchCfg) (calls : List Call)
    (hTok : pyTruthy cfg.notionToken = true) :
    (dispatchCalls cfg calls).invoked = calls ∧
    parse_natural_time ⟨2025, 3, 27⟩ "Remind me to buy milk tomorrow at 8am" =
      ⟨some "2025-03-28", some "08:00", none⟩ ∧
    hasSub "buy milk" (lowerStr "Remind me to buy milk tomorrow at 8am".toList) = true := by
  refine ⟨?_, by decide, by decide⟩
  have h := dispatchLoop_linked cfg hTok calls initSt
  simpa [dispatchCalls, initSt] using h.1

/-- C5 witness: instantiation at the scenario batch. -/
theorem c5_witness :
    (dispatchCalls linkedCfg [reminderCall, noteCall]).invoked = [reminderCall, noteCall] ∧
    parse_natural_time ⟨2025, 3, 27⟩ "Remind me to buy milk tomorrow at 8am" =
      ⟨some "2025-03-28", some "08:00", none⟩ ∧
    hasSub "buy milk" (lowerStr "Remind me to buy milk tomorrow at 8am".toList) = true :=
  c5_no_enrichment_args_passed_unchanged linkedCfg [reminderCall, noteCall] (by decide)

/-- C6 (code bug): "day after tomorrow" contains the substring
"tomorrow", and `_extract_date` checks "tomorrow" first, so the
`+2 days` branch for "day after tomorrow" is unreachable: with today =
2025-03-27 the extractor returns 2025-03-28 (today + 1), not the claimed
2025-03-29 (today + 2).  The "tomorrow"-alone and "today" parts of the
claim do hold. -/
theorem c6_day_after_tomorrow_shadowed :
    extract_date ⟨2025, 3, 27⟩ "day after tomorrow" = some "2025-03-28" ∧
    ("2025-03-28" : String) = ⟨fmtDate (addDays ⟨2025, 3, 27⟩ 1)⟩ ∧
    ("2025-03-29" : String) = ⟨fmtDate (addDays ⟨2025, 3, 27⟩ 2)⟩ ∧
    ¬ extract_date ⟨2025, 3, 27⟩ "day after tomorrow" = some "2025-03-29" ∧
    extract_date ⟨2025, 3, 27⟩ "tomorrow" = some "2025-03-28" ∧
    extract_date ⟨2025, 3, 27⟩ "today" = some "2025-03-27" := by
  refine ⟨by decide, by decide, by decide, by decide, by decide, by decide⟩

/-- C7 (code bug): the two-component pattern is tried first and matches
inside any three-component date, so "12/25/2023" is resolved against the
current year (2025-12-25 for today = 2025-03-27), ignoring the written
year 2023; the literal-year branch is reachable only when the
two-component resolution is an invalid calendar date, e.g. a Feb-29 date
("2/29/2024" → 2024-02-29 literally, since 2025/2026 are not leap
years). -/
theorem c7_written_year_ignored :
    extract_date ⟨2025, 3, 27⟩ "12/25/2023" = some "2025-12-25" ∧
    ¬ extract_date ⟨2025, 3, 27⟩ "12/25/2023" = some "2023-12-25" ∧
    extract_date ⟨2025, 3, 27⟩ "2/29/2024" = some "2024-02-29" := by
  refine ⟨by decide, by decide, by decide⟩

/-- C9: the recurrence normalizer (modelled from the spec, §4.2, since
`parse_time_interval` is absent from src/) is total — in particular a
phrase mentioning minutes with no parsable integer falls back to the
documented default of 60 minutes instead of failing — and maps
"every 2 hours" to (CUSTOM, 120 minutes) and "weekly" to
(WEEKLY, 10080 minutes); `set_reminder` routes any custom repeat value
through it. -/
theorem c9_normalize_interval_total_and_examples :
    parse_time_interval "every 2 hours" = (120, .CUSTOM) ∧
    parse_time_interval "weekly" = (10080, .WEEKLY) ∧
    (∀ p : String, hasSub "minute" (lowerStr p.toList) = true →
      firstIntOpt (lowerStr p.toList) = none →
      parse_time_interval p = (60, .CUSTOM)) ∧
    setReminderRepeatSpec "every 2 hours" = (.CUSTOM, 120) := by
  refine ⟨by decide, by decide, ?_, by decide⟩
  intro p hmin hnone
  unfold parse_time_interval
  rw [if_pos hmin, hnone]
  rfl

/-- C9 witness: the fallback conjunct applied at "every minute" (no
digits), giving the default 60-minute CUSTOM spec. -/
theorem c9_witness : parse_time_interval "every minute" = (60, .CUSTOM) :=
  c9_normalize_interval_total_and_examples.2.2.1 "every minute" (by decide) (by decide)


/-- C10: an inbound non-command text message from a user whose Notion
access token is unset (falsy) makes the webhook send the login link
(ngrok available, link message deliverable) and return AUTH_REQUIRED
before anything else happens: the LLM is never invoked, no function call
of any kind is executed, no service operation runs, and neither the
user's message nor any reply is appended to the conversation history. -/
theorem c10_unlinked_user_gated_before_llm (w : WebIn)
    (hCmd : startsList "/start".toList w.text.toList = false)
    (hTok : pyTruthy w.user.notionToken = false)
    (hNgrok : w.ngrokUrl.isSome = true)
    (hSend : w.sendO 0 = true) :
    (webhook w).status = .authRequired ∧
    (webhook w).eff.loginLinks = 1 ∧
    (webhook w).eff.llmCalls = 0 ∧
    (webhook w).eff.invoked = [] ∧
    (webhook w).eff.ops = [] ∧
    (webhook w).eff.history = [] ∧
    (webhook w).eff.sent =
      ["Please link your Notion account using the message above to use Notion features."] := by
  have hng : loginLinkCount w.ngrokUrl = 1 := by
    rcases h : w.ngrokUrl with _ | u
    · rw [h] at hNgrok; simp at hNgrok
    · rfl
  have hCmd' : startsList ['/', 's', 't', 'a', 'r', 't'] w.text.data = false := hCmd
  simp [webhook, hCmd', webhookGate, hTok, hng, doSend, initEff, hSend]

/-- C10 witness: the gate at a concrete unlinked user and message. -/
theorem c10_witness :
    (webhook unlinkedWebIn).status = .authRequired ∧
    (webhook unlinkedWebIn).eff.loginLinks = 1 ∧
    (webhook unlinkedWebIn).eff.llmCalls = 0 ∧
    (webhook unlinkedWebIn).eff.invoked = [] ∧
    (webhook unlinkedWebIn).eff.ops = [] ∧
    (webhook unlinkedWebIn).eff.history = [] ∧
    (webhook unlinkedWebIn).eff.sent =
      ["Please link your Notion account using the message above to use Notion features."] :=
  c10_unlinked_user_gated_before_llm unlinkedWebIn
    (by decide) (by decide) (by decide) (by decide)

/-- C4 counterexample: the claim requires a persisted conversation entry
exactly once per message even on error paths (with an error-apology
assistant turn); but when the first history-persistence call raises, the
webhook's `except` branch only attempts an apology send and returns the
500 response — nothing at all is persisted. -/
theorem c4_counterexample :
    (webhook persistFailWebIn).status = .internalError ∧
    (webhook persistFailWebIn).eff.history = [] ∧
    (webhook persistFailWebIn).eff.apologies = 1 ∧
    (webhook persistFailWebIn).eff.sent = [] := by
  refine ⟨by decide, by decide, by decide, by decide⟩

/-- C4 (amended): for a non-command text message from a linked, set-up
user, the webhook always returns either the success response or the 500
error response — a raw exception never escapes.  On the success path it
persists exactly one user turn and one assistant turn (the computed
reply) and sends that reply.  On the error path it attempts exactly one
apology send but persists no apology: the history is a prefix of the
success-path history (in particular, no assistant error-apology entry is
ever persisted). -/
theorem c4_reply_and_persistence (w : WebIn)
    (hCmd : startsList "/start".toList w.text.toList = false)
    (hTok : pyTruthy w.user.notionToken = true)
    (hSetup : w.user.setupComplete = true) :
    ((webhook w).status = .okSuccess ∨ (webhook w).status = .internalError) ∧
    ((webhook w).status = .okSuccess →
      (webhook w).eff.history = [("user", w.text), ("assistant", webhookReply w)] ∧
      (webhook w).eff.sent = [webhookReply w] ∧
      (webhook w).eff.apologies = 0) ∧
    ((webhook w).status = .internalError →
      (webhook w).eff.apologies = 1 ∧
      ((webhook w).eff.history = [] ∨
       (webhook w).eff.history = [("user", w.text)] ∨
       (webhook w).eff.history = [("user", w.text), ("assistant", webhookReply w)])) := by
  have hCmd' : startsList ['/', 's', 't', 'a', 'r', 't'] w.text.data = false := hCmd
  have hW : webhook w = webhookProcess w w.user initEff := by
    simp [webhook, hCmd', webhookGate, hTok, hSetup]
  rw [hW]
  unfold webhookProcess
  by_cases h0 : w.persistO 0
  · by_cases h1 : w.persistO 1
    · by_cases h2 : w.sendO 0
      · simp [doPersist, doSend, exceptBranch, initEff, h0, h1, h2, webhookReply]
      · simp [doPersist, doSend, exceptBranch, initEff, h0, h1, h2, webhookReply]
    · simp [doPersist, doSend, exceptBranch, initEff, h0, h1, webhookReply]
  · simp [doPersist, doSend, exceptBranch, initEff, h0, webhookReply]

/-- C4 witness: the happy path at the baseline input — one user turn,
one assistant turn, reply sent, success status. -/
theorem c4_witness :
    ((webhook baseWebIn).status = .okSuccess ∨ (webhook baseWebIn).status = .internalError) ∧
    ((webhook baseWebIn).status = .okSuccess →
      (webhook baseWebIn).eff.history =
        [("user", "hi"), ("assistant", webhookReply baseWebIn)] ∧
      (webhook baseWebIn).eff.sent = [webhookReply baseWebIn] ∧
      (webhook baseWebIn).eff.apologies = 0) ∧
    ((webhook baseWebIn).status = .internalError →
      (webhook baseWebIn).eff.apologies = 1 ∧
      ((webhook baseWebIn).eff.history = [] ∨
       (webhook baseWebIn).eff.history = [("user", "hi")] ∨
       (webhook baseWebIn).eff.history =
         [("user", "hi"), ("assistant", webhookReply baseWebIn)])) :=
  c4_reply_and_persistence baseWebIn (by decide) (by decide) (by decide)


/-! # Helper lemmas for the time extractor (towards C8) -/

/-- An ASCII digit's value is at most 9. -/
theorem digVal_le_nine {c : Char} (h : isDig c = true) : digVal c ≤ 9 := by
  simp [isDig] at h
  unfold digVal
  omega

/-- A two-digit parse is below 100. -/
theorem twoDigits_lt : ∀ {l : List Char} {n : Nat} {r : List Char},
    twoDigits l = some (n, r) → n < 100 := by
  intro l n r h
  match l with
  | [] => simp [twoDigits] at h
  | [a] => simp [twoDigits] at h
  | a :: b :: t =>
    simp only [twoDigits] at h
    split at h
    · rename_i hd
      simp only [Option.some.injEq, Prod.mk.injEq] at h
      simp only [Bool.and_eq_true] at hd
      have ha := digVal_le_nine hd.1
      have hb := digVal_le_nine hd.2
      omega
    · simp at h

/-- A one-digit parse is below 100. -/
theorem oneDigit_lt : ∀ {l : List Char} {n : Nat} {r : List Char},
    oneDigit l = some (n, r) → n < 100 := by
  intro l n r h
  match l with
  | [] => simp [oneDigit] at h
  | a :: t =>
    simp only [oneDigit] at h
    split at h
    · rename_i hd
      simp only [Option.some.injEq, Prod.mk.injEq] at h
      have ha := digVal_le_nine hd
      omega
    · simp at h

/-- The rest left by a two-digit parse is part of the input. -/
theorem twoDigits_rest_sub : ∀ {l : List Char} {n : Nat} {r : List Char},
    twoDigits l = some (n, r) → ∀ x ∈ r, x ∈ l := by
  intro l n r h x hx
  match l with
  | [] => simp [twoDigits] at h
  | [a] => simp [twoDigits] at h
  | a :: b :: t =>
    simp only [twoDigits] at h
    split at h
    · simp only [Option.some.injEq, Prod.mk.injEq] at h
      rcases h with ⟨-, rfl⟩
      simp [hx]
    · simp at h

/-- The rest left by a one-digit parse is part of the input. -/
theorem oneDigit_rest_sub : ∀ {l : List Char} {n : Nat} {r : List Char},
    oneDigit l = some (n, r) → ∀ x ∈ r, x ∈ l := by
  intro l n r h x hx
  match l with
  | [] => simp [oneDigit] at h
  | a :: t =>
    simp only [oneDigit] at h
    split at h
    · simp only [Option.some.injEq, Prod.mk.injEq] at h
      rcases h with ⟨-, rfl⟩
      simp [hx]
    · simp at h

/-- Whitespace skipping keeps a sublist of the input. -/
theorem skipWs_sub : ∀ {l : List Char}, ∀ x ∈ skipWs l, x ∈ l := by
  intro l
  induction l with
  | nil => intro x hx; exact hx
  | cons c r ih =>
    intro x hx
    rw [skipWs] at hx
    split at hx
    · exact List.mem_cons_of_mem _ (ih x hx)
    · exact hx

/-- A successful `[ap]...` match starts with `'a'` or `'p'`, a character
of the input. -/
theorem amPm_mem : ∀ {l : List Char} {mk : Char},
    amPm l = some mk → (mk = 'a' ∨ mk = 'p') ∧ mk ∈ l := by
  intro l mk h
  match l with
  | [] => simp [amPm] at h
  | c :: r =>
    simp only [amPm] at h
    split at h
    · rename_i hc
      rcases ht : amPmTail r with _ | r2
      · rw [ht] at h; simp at h
      · rw [ht] at h
        have h2 : c = mk := Option.some.inj h
        subst h2
        simp only [Bool.or_eq_true, beq_iff_eq] at hc
        exact ⟨hc, by simp⟩
    · simp at h


/-- Specification of a successful pattern-1 tail match. -/
theorem p1Rest_spec : ∀ {h0 : Nat} {l : List Char} {h m : Nat} {mk : Char},
    p1Rest h0 l = some (h, m, mk) →
    h = h0 ∧ m < 100 ∧ (mk = 'a' ∨ mk = 'p') ∧ mk ∈ l := by
  intro h0 l h m mk hp
  match l with
  | [] => simp [p1Rest] at hp
  | c :: r2 =>
    simp only [p1Rest] at hp
    split at hp
    · rcases h2 : twoDigits r2 with _ | ⟨m2, r3⟩
      · simp only [h2] at hp; simp at hp
      · simp only [h2] at hp
        rcases ha : amPm (skipWs r3) with _ | mk2
        · rw [ha] at hp; simp at hp
        · rw [ha] at hp
          have h3 : (h0, m2, mk2) = (h, m, mk) := Option.some.inj hp
          simp only [Prod.mk.injEq] at h3
          obtain ⟨e1, e2, e3⟩ := h3
          subst e1; subst e2; subst e3
          rcases amPm_mem ha with ⟨hap, hmem⟩
          exact ⟨rfl, twoDigits_lt h2, hap,
            List.mem_cons_of_mem _ (twoDigits_rest_sub h2 _ (skipWs_sub _ hmem))⟩
    · simp at hp

/-- Specification of a successful anchored pattern-1 match. -/
theorem p1At_spec : ∀ {l : List Char} {h m : Nat} {mk : Char},
    p1At l = some (h, m, mk) →
    h < 100 ∧ m < 100 ∧ (mk = 'a' ∨ mk = 'p') ∧ mk ∈ l := by
  intro l h m mk hp
  simp only [p1At] at hp
  rcases h2 : twoDigits l with _ | ⟨h2v, r2⟩ <;> simp only [h2] at hp
  · rcases h1 : oneDigit l with _ | ⟨h1v, r1⟩ <;> simp only [h1] at hp
    · simp at hp
    · rcases p1Rest_spec hp with ⟨e, b2, b3, b4⟩
      subst e
      exact ⟨oneDigit_lt h1, b2, b3, oneDigit_rest_sub h1 mk b4⟩
  · rcases hr : p1Rest h2v r2 with _ | v <;> simp only [hr] at hp
    · rcases h1 : oneDigit l with _ | ⟨h1v, r1⟩ <;> simp only [h1] at hp
      · simp at hp
      · rcases p1Rest_spec hp with ⟨e, b2, b3, b4⟩
        subst e
        exact ⟨oneDigit_lt h1, b2, b3, oneDigit_rest_sub h1 mk b4⟩
    · have hv : v = (h, m, mk) := Option.some.inj hp
      subst hv
      rcases p1Rest_spec hr with ⟨e, b2, b3, b4⟩
      subst e
      exact ⟨twoDigits_lt h2, b2, b3, twoDigits_rest_sub h2 mk b4⟩

/-- Specification of a successful pattern-1 scan. -/
theorem scan1_spec : ∀ {l : List Char} {h m : Nat} {mk : Char},
    scan1 l = some (h, m, mk) →
    h < 100 ∧ m < 100 ∧ (mk = 'a' ∨ mk = 'p') ∧ mk ∈ l := by
  intro l
  induction l with
  | nil => intro h m mk hs; simp [scan1] at hs
  | cons c r ih =>
    intro h m mk hs
    rw [scan1] at hs
    rcases hp : p1At (c :: r) with _ | v <;> simp only [hp] at hs
    · rcases ih hs with ⟨b1, b2, b3, b4⟩
      exact ⟨b1, b2, b3, List.mem_cons_of_mem _ b4⟩
    · have hv : v = (h, m, mk) := Option.some.inj hs
      subst hv
      exact p1At_spec hp

/-- Specification of a successful pattern-2 tail match. -/
theorem p2Rest_spec : ∀ {h0 : Nat} {l : List Char} {h : Nat} {mk : Char},
    p2Rest h0 l = some (h, mk) →
    h = h0 ∧ (mk = 'a' ∨ mk = 'p') ∧ mk ∈ l := by
  intro h0 l h mk hp
  simp only [p2Rest] at hp
  rcases ha : amPm (skipWs l) with _ | mk2 <;> rw [ha] at hp
  · simp at hp
  · have h3 : (h0, mk2) = (h, mk) := Option.some.inj hp
    simp only [Prod.mk.injEq] at h3
    obtain ⟨e1, e2⟩ := h3
    subst e1; subst e2
    rcases amPm_mem ha with ⟨hap, hmem⟩
    exact ⟨rfl, hap, skipWs_sub _ hmem⟩

/-- Specification of a successful anchored pattern-2 match. -/
theorem p2At_spec : ∀ {l : List Char} {h : Nat} {mk : Char},
    p2At l = some (h, mk) →
    h < 100 ∧ (mk = 'a' ∨ mk = 'p') ∧ mk ∈ l := by
  intro l h mk hp
  simp only [p2At] at hp
  rcases h2 : twoDigits l with _ | ⟨h2v, r2⟩ <;> simp only [h2] at hp
  · rcases h1 : oneDigit l with _ | ⟨h1v, r1⟩ <;> simp only [h1] at hp
    · simp at hp
    · rcases p2Rest_spec hp with ⟨e, b3, b4⟩
      subst e
      exact ⟨oneDigit_lt h1, b3, oneDigit_rest_sub h1 mk b4⟩
  · rcases hr : p2Rest h2v r2 with _ | v <;> simp only [hr] at hp
    · rcases h1 : oneDigit l with _ | ⟨h1v, r1⟩ <;> simp only [h1] at hp
      · simp at hp
      · rcases p2Rest_spec hp with ⟨e, b3, b4⟩
        subst e
        exact ⟨oneDigit_lt h1, b3, oneDigit_rest_sub h1 mk b4⟩
    · have hv : v = (h, mk) := Option.some.inj hp
      subst hv
      rcases p2Rest_spec hr with ⟨e, b3, b4⟩
      subst e
      exact ⟨twoDigits_lt h2, b3, twoDigits_rest_sub h2 mk b4⟩

/-- Specification of a successful pattern-2 scan. -/
theorem scan2_spec : ∀ {l : List Char} {h : Nat} {mk : Char},
    scan2 l = some (h, mk) →
    h < 100 ∧ (mk = 'a' ∨ mk = 'p') ∧ mk ∈ l := by
  intro l
  induction l with
  | nil => intro h mk hs; simp [scan2] at hs
  | cons c r ih =>
    intro h mk hs
    rw [scan2] at hs
    rcases hp : p2At (c :: r) with _ | v <;> simp only [hp] at hs
    · rcases ih hs with ⟨b1, b3, b4⟩
      exact ⟨b1, b3, List.mem_cons_of_mem _ b4⟩
    · have hv : v = (h, mk) := Option.some.inj hs
      subst hv
      exact p2At_spec hp

/-- Specification of a successful pattern-3 tail match. -/
theorem p3Rest_spec : ∀ {h0 : Nat} {l : List Char} {h m : Nat},
    p3Rest h0 l = some (h, m) → h = h0 ∧ m < 100 := by
  intro h0 l h m hp
  match l with
  | [] => simp [p3Rest] at hp
  | c :: r2 =>
    simp only [p3Rest] at hp
    split at hp
    · rcases h2 : twoDigits r2 with _ | ⟨m2, r3⟩ <;> simp only [h2] at hp
      · simp at hp
      · have h3 : (h0, m2) = (h, m) := Option.some.inj hp
        simp only [Prod.mk.injEq] at h3
        obtain ⟨e1, e2⟩ := h3
        subst e1; subst e2
        exact ⟨rfl, twoDigits_lt h2⟩
    · simp at hp

/-- Specification of a successful anchored pattern-3 match. -/
theorem p3At_spec : ∀ {l : List Char} {h m : Nat},
    p3At l = some (h, m) → h < 100 ∧ m < 100 := by
  intro l h m hp
  simp only [p3At] at hp
  rcases h2 : twoDigits l with _ | ⟨h2v, r2⟩ <;> simp only [h2] at hp
  · rcases h1 : oneDigit l with _ | ⟨h1v, r1⟩ <;> simp only [h1] at hp
    · simp at hp
    · rcases p3Rest_spec hp with ⟨e, b2⟩
      subst e
      exact ⟨oneDigit_lt h1, b2⟩
  · rcases hr : p3Rest h2v r2 with _ | v <;> simp only [hr] at hp
    · rcases h1 : oneDigit l with _ | ⟨h1v, r1⟩ <;> simp only [h1] at hp
      · simp at hp
      · rcases p3Rest_spec hp with ⟨e, b2⟩
        subst e
        exact ⟨oneDigit_lt h1, b2⟩
    · have hv : v = (h, m) := Option.some.inj hp
      subst hv
      rcases p3Rest_spec hr with ⟨e, b2⟩
      subst e
      exact ⟨twoDigits_lt h2, b2⟩

/-- Specification of a successful pattern-3 scan. -/
theorem scan3_spec : ∀ {l : List Char} {h m : Nat},
    scan3 l = some (h, m) → h < 100 ∧ m < 100 := by
  intro l
  induction l with
  | nil => intro h m hs; simp [scan3] at hs
  | cons c r ih =>
    intro h m hs
    rw [scan3] at hs
    rcases hp : p3At (c :: r) with _ | v <;> simp only [hp] at hs
    · exact ih hs
    · have hv : v = (h, m) := Option.some.inj hs
      subst hv
      exact p3At_spec hp

/-- The am/pm adjustment keeps the hour below 100. -/
theorem amPmAdjust_lt {mk : Char} {h : Nat} (hh : h < 100) : amPmAdjust mk h < 100 := by
  unfold amPmAdjust
  split
  · rename_i hcond
    simp only [Bool.and_eq_true, decide_eq_true_eq] at hcond
    omega
  · split
    · omega
    · exact hh

/-- The hour/minute cascade only produces values below 100. -/
theorem extractTimeHM_lt : ∀ {l : List Char} {h m : Nat},
    extractTimeHM l = some (h, m) → h < 100 ∧ m < 100 := by
  intro l h m he
  simp only [extractTimeHM] at he
  rcases h1 : scan1 l with _ | ⟨h0, m0, mk⟩ <;> simp only [h1] at he
  · rcases h2 : scan2 l with _ | ⟨h0, mk⟩ <;> simp only [h2] at he
    · rcases h3 : scan3 l with _ | ⟨h0, m0⟩ <;> simp only [h3] at he
      · simp at he
      · have hv : (h0, m0) = (h, m) := Option.some.inj he
        simp only [Prod.mk.injEq] at hv
        obtain ⟨e1, e2⟩ := hv
        subst e1; subst e2
        exact scan3_spec h3
    · have hv : (amPmAdjust mk h0, 0) = (h, m) := Option.some.inj he
      simp only [Prod.mk.injEq] at hv
      obtain ⟨e1, e2⟩ := hv
      subst e1; subst e2
      exact ⟨amPmAdjust_lt (scan2_spec h2).1, by omega⟩
  · have hv : (amPmAdjust mk h0, m0) = (h, m) := Option.some.inj he
    simp only [Prod.mk.injEq] at hv
    obtain ⟨e1, e2⟩ := hv
    subst e1; subst e2
    rcases scan1_spec h1 with ⟨b1, b2, -, -⟩
    exact ⟨amPmAdjust_lt b1, b2⟩

/-- Pattern 1 cannot match a text containing neither `'a'` nor `'p'`. -/
theorem scan1_none {l : List Char} (hl : ∀ x ∈ l, x ≠ 'a' ∧ x ≠ 'p') :
    scan1 l = none := by
  rcases hs : scan1 l with _ | ⟨h, m, mk⟩
  · rfl
  · exfalso
    rcases scan1_spec hs with ⟨-, -, hap, hmem⟩
    rcases hl mk hmem with ⟨ha, hp⟩
    rcases hap with h' | h'
    · exact ha h'
    · exact hp h'

/-- Pattern 2 cannot match a text containing neither `'a'` nor `'p'`. -/
theorem scan2_none {l : List Char} (hl : ∀ x ∈ l, x ≠ 'a' ∧ x ≠ 'p') :
    scan2 l = none := by
  rcases hs : scan2 l with _ | ⟨h, mk⟩
  · rfl
  · exfalso
    rcases scan2_spec hs with ⟨-, hap, hmem⟩
    rcases hl mk hmem with ⟨ha, hp⟩
    rcases hap with h' | h'
    · exact ha h'
    · exact hp h'


/-- Facts about the decimal digit characters `'0'`..`'9'`: they are
digits, carry their value, are fixed by lower-casing, and are neither
`'a'` nor `'p'`. -/
theorem digitChar_facts : ∀ k : Fin 10,
    isDig (Nat.digitChar k.1) = true ∧ digVal (Nat.digitChar k.1) = k.1 ∧
    pyLower (Nat.digitChar k.1) = Nat.digitChar k.1 ∧
    Nat.digitChar k.1 ≠ 'a' ∧ Nat.digitChar k.1 ≠ 'p' := by decide

/-- `f"{n:02d}"` of a value below 100 is its two decimal digits. -/
theorem pad2_eq : ∀ k : Fin 100,
    pad2 k.1 = [Nat.digitChar (k.1 / 10), Nat.digitChar (k.1 % 10)] := by decide

/-- The canonical `HH:MM` output is the five-character digit/colon list. -/
theorem fmtTimeL_eq {h m : Nat} (hh : h < 100) (hm : m < 100) :
    fmtTimeL h m =
      [Nat.digitChar (h / 10), Nat.digitChar (h % 10), ':',
       Nat.digitChar (m / 10), Nat.digitChar (m % 10)] := by
  have hph := pad2_eq ⟨h, hh⟩
  have hpm := pad2_eq ⟨m, hm⟩
  simp only at hph hpm
  rw [fmtTimeL, hph, hpm]
  rfl

/-- Feeding a canonical `HH:MM` output back through `_extract_time`
returns it unchanged: patterns 1 and 2 cannot match (no am/pm letter is
present) and pattern 3 re-parses exactly the same hour and minute. -/
theorem extract_time_fixed {h m : Nat} (hh : h < 100) (hm : m < 100) :
    extract_time (fmtTime h m) = some (fmtTime h m) := by
  have hd10 : h / 10 < 10 := by
    omega
  have hd10m : m / 10 < 10 := by
    omega
  have hm10 : h % 10 < 10 := Nat.mod_lt _ (by omega)
  have hm10m : m % 10 < 10 := Nat.mod_lt _ (by omega)
  obtain ⟨f1a, f1b, f1c, f1d, f1e⟩ := digitChar_facts ⟨h / 10, hd10⟩
  obtain ⟨f2a, f2b, f2c, f2d, f2e⟩ := digitChar_facts ⟨h % 10, hm10⟩
  obtain ⟨f3a, f3b, f3c, f3d, f3e⟩ := digitChar_facts ⟨m / 10, hd10m⟩
  obtain ⟨f4a, f4b, f4c, f4d, f4e⟩ := digitChar_facts ⟨m % 10, hm10m⟩
  simp only at f1a f1b f1c f1d f1e f2a f2b f2c f2d f2e f3a f3b f3c f3d f3e f4a f4b f4c f4d f4e
  have hL := fmtTimeL_eq hh hm
  have htl : (fmtTime h m).toList = fmtTimeL h m := rfl
  have hlow : lowerStr (fmtTimeL h m) = fmtTimeL h m := by
    rw [hL]
    simp [lowerStr, f1c, f2c, f3c, f4c]
    decide
  have hnoap : ∀ x ∈ fmtTimeL h m, x ≠ 'a' ∧ x ≠ 'p' := by
    rw [hL]
    intro x hx
    simp only [List.mem_cons, List.not_mem_nil, or_false] at hx
    rcases hx with rfl | rfl | rfl | rfl | rfl
    · exact ⟨f1d, f1e⟩
    · exact ⟨f2d, f2e⟩
    · exact ⟨by decide, by decide⟩
    · exact ⟨f3d, f3e⟩
    · exact ⟨f4d, f4e⟩
  have h2d : twoDigits (fmtTimeL h m) = some (h, ':' :: [Nat.digitChar (m / 10), Nat.digitChar (m % 10)]) := by
    rw [hL]
    simp [twoDigits, f1a, f2a, f1b, f2b]
    omega
  have h2d' : twoDigits [Nat.digitChar (m / 10), Nat.digitChar (m % 10)] = some (m, []) := by
    simp [twoDigits, f3a, f4a, f3b, f4b]
    omega
  have hp3 : p3At (fmtTimeL h m) = some (h, m) := by
    simp [p3At, h2d, p3Rest, h2d']
  have hs3 : scan3 (fmtTimeL h m) = some (h, m) := by
    rw [hL]
    rw [scan3]
    rw [← hL, hp3]
  have hHM : extractTimeHM (fmtTimeL h m) = some (h, m) := by
    rw [extractTimeHM, scan1_none hnoap, scan2_none hnoap, hs3]
  show extract_time ⟨fmtTimeL h m⟩ = some (fmtTime h m)
  simp only [extract_time, htl]
  rw [show (⟨fmtTimeL h m⟩ : String).toList = fmtTimeL h m from rfl, hlow, hHM]

/-- Every output of `_extract_time` is a canonical `HH:MM` render of an
hour and a minute below 100. -/
theorem extract_time_repr {s u : String} (h : extract_time s = some u) :
    ∃ hh mm, hh < 100 ∧ mm < 100 ∧ u = fmtTime hh mm := by
  simp only [extract_time] at h
  rcases hm : extractTimeHM (lowerStr s.toList) with _ | ⟨hh, mm⟩ <;> simp only [hm] at h
  · split at h
    · exact ⟨12, 0, by omega, by omega, by rw [← Option.some.inj h]; decide⟩
    · split at h
      · exact ⟨0, 0, by omega, by omega, by rw [← Option.some.inj h]; decide⟩
      · split at h
        · exact ⟨9, 0, by omega, by omega, by rw [← Option.some.inj h]; decide⟩
        · split at h
          · exact ⟨14, 0, by omega, by omega, by rw [← Option.some.inj h]; decide⟩
          · split at h
            · exact ⟨18, 0, by omega, by omega, by rw [← Option.some.inj h]; decide⟩
            · split at h
              · exact ⟨20, 0, by omega, by omega, by rw [← Option.some.inj h]; decide⟩
              · simp at h
  · rcases extractTimeHM_lt hm with ⟨b1, b2⟩
    exact ⟨hh, mm, b1, b2, (Option.some.inj h).symm⟩

/-- C8: `_extract_time` converts am/pm forms to 24-hour strings —
"3:30pm" ↦ "15:30", "12:15am" ↦ "00:15", "09:05" ↦ "09:05" — and is
idempotent on its canonical output: any `"HH:MM"` value it returns (such
outputs never contain an am/pm marker) is mapped to itself when fed back
through time extraction. -/
theorem c8_time_extraction_canonical_and_idempotent :
    extract_time "3:30pm" = some "15:30" ∧
    extract_time "12:15am" = some "00:15" ∧
    extract_time "09:05" = some "09:05" ∧
    ∀ t s : String, extract_time t = some s → extract_time s = some s := by
  refine ⟨by decide, by decide, by decide, ?_⟩
  intro t s h
  rcases extract_time_repr h with ⟨hh, mm, b1, b2, rfl⟩
  exact extract_time_fixed b1 b2

/-- C8 witness: the canonical output for "3:30pm" is a fixed point of
time extraction. -/
theorem c8_witness : extract_time "15:30" = some "15:30" :=
  c8_time_extraction_canonical_and_idempotent.2.2.2 "3:30pm" "15:30" (by decide)

end Pai
